import Mathlib

/-!
Verification model of the `dst-newsfeed` repository.

The repository has two source files:
* `src/newsfeed/etl/extract.py` — classes `ApiNames`, `ApiNyTimes`,
  `MostPopular`, `TimesWire`;
* `src/newsfeed/extract/api_newswire.py` — class `ExtractApiNewsWire`.

Both files fetch JSON from the NY Times API with `requests.get` and write the
parsed payload back to disk with `json.dump`.  This file gives a shallow
embedding of the data model and the operations those classes perform:
URL composition, query-parameter assembly, environment lookup, Python call
semantics for missing required arguments, JSON serialization (`json.dump`)
and parsing (`response.json()` / `json.loads`), and the derived filenames.
-/

namespace Newsfeed

/-! ### JSON values (the payloads moved by the code)

`Json` models the Python objects produced by `response.json()` and consumed
by `json.dump`: `None`, booleans, integers, strings, lists and dicts.
Floating-point numbers are outside the model; none of the claims involve
them. -/

inductive Json where
  | null : Json
  | bool (b : Bool) : Json
  | num (n : Int) : Json
  | str (s : String) : Json
  | arr (elems : List Json) : Json
  | obj (members : List (String × Json)) : Json

/-! ### `json.dump` (serialization)

`json.dump(data, file)` with default options writes the value with item
separator `", "` and key separator `": "`, escaping `"` and `\` in strings.
`dumpChars` reproduces that byte sequence (for payloads without control
characters, which the repository's data never contains). -/

/-- Escaping of a single character inside a JSON string literal, as
`json.dump` performs it for the quote and backslash characters. -/
def escapeChar (c : Char) : List Char :=
  if c = '"' then ['\\', '"'] else if c = '\\' then ['\\', '\\'] else [c]

/-- Escaping of a whole string body, character by character. -/
def escapeString : List Char → List Char
  | [] => []
  | c :: cs => escapeChar c ++ escapeString cs

/-- Decimal digit to its character, used to render integers the way
Python's `str(int)` does. -/
def digitToChar (d : Nat) : Char :=
  if d = 0 then '0' else if d = 1 then '1' else if d = 2 then '2'
  else if d = 3 then '3' else if d = 4 then '4' else if d = 5 then '5'
  else if d = 6 then '6' else if d = 7 then '7' else if d = 8 then '8'
  else '9'

/-- Base-10 digit characters of `m`, most significant first, empty for 0;
`fuel` bounds the division recursion (`fuel = m` always suffices). -/
def natToCharsAux : Nat → Nat → List Char
  | 0, _ => []
  | fuel + 1, m =>
    if m = 0 then [] else natToCharsAux fuel (m / 10) ++ [digitToChar (m % 10)]

/-- Characters of a natural number in base 10, most significant first:
the rendering `str(n)` uses for a non-negative integer. -/
def natToChars (m : Nat) : List Char :=
  if m = 0 then ['0'] else natToCharsAux m m

/-- Characters of an integer: Python's `str(int)` (a `-` sign followed by the
decimal digits when negative). -/
def intToChars (n : Int) : List Char :=
  if n < 0 then '-' :: natToChars n.natAbs else natToChars n.toNat

mutual

/-- The byte sequence `json.dump` writes for a value (default separators
`", "` and `": "`, no indent). -/
def dumpChars : Json → List Char
  | .null => "null".data
  | .bool true => "true".data
  | .bool false => "false".data
  | .num n => intToChars n
  | .str s => '"' :: (escapeString s.data ++ ['"'])
  | .arr [] => ['[', ']']
  | .arr (j :: tl) => '[' :: (dumpChars j ++ dumpElems tl)
  | .obj [] => ['\x7b', '\x7d']
  | .obj (m :: tl) => '\x7b' :: (dumpMember m ++ dumpMembers tl)

/-- Rendering of the remaining elements of a non-empty array, each preceded
by the `", "` separator, closed with `]`. -/
def dumpElems : List Json → List Char
  | [] => [']']
  | j :: tl => ',' :: ' ' :: (dumpChars j ++ dumpElems tl)

/-- Rendering of the remaining members of a non-empty object, each preceded
by the `", "` separator, closed with `}`. -/
def dumpMembers : List (String × Json) → List Char
  | [] => ['\x7d']
  | m :: tl => ',' :: ' ' :: (dumpMember m ++ dumpMembers tl)

/-- Rendering of a single `"key": value` member. -/
def dumpMember : String × Json → List Char
  | (k, v) => '"' :: (escapeString k.data ++ ('"' :: ':' :: ' ' :: dumpChars v))

end

/-- The string `json.dump` writes for a value. -/
def Json.dumpString (j : Json) : String :=
  String.mk (dumpChars j)

/-! ### `json.loads` / `response.json()` (parsing)

A recursive-descent parser over the character list, with a fuel argument
for termination.  It accepts exactly the canonical form `dumpChars`
emits, which is the single notion of JSON text used in this development. -/

/-- Consume one expected character. -/
def expectChar (c : Char) : List Char → Option (List Char)
  | [] => none
  | d :: r => if d = c then some r else none

/-- Consume an expected literal character sequence. -/
def expectChars : List Char → List Char → Option (List Char)
  | [], cs => some cs
  | l :: ls, cs => (expectChar l cs).bind (expectChars ls)

/-- Parse the body of a string literal up to its closing quote, undoing the
escaping of `escapeChar`. -/
def parseStringBody : List Char → Option (List Char × List Char)
  | [] => none
  | c :: cs =>
    if c = '"' then some ([], cs)
    else if c = '\\' then
      match cs with
      | [] => none
      | d :: cs2 =>
        if d = '"' ∨ d = '\\' then
          (parseStringBody cs2).map (fun p => (d :: p.1, p.2))
        else none
    else (parseStringBody cs).map (fun p => (c :: p.1, p.2))

/-- Accumulate a maximal run of decimal digits (the loop of an integer
parser); returns the value and the remaining input. -/
def parseNatAux : List Char → Nat → Nat × List Char
  | [], acc => (acc, [])
  | c :: cs, acc =>
    if c.isDigit then parseNatAux cs (10 * acc + (c.toNat - 48)) else (acc, c :: cs)

mutual

/-- Parse one JSON value.  `fuel` bounds the recursion depth; the input
length is always sufficient fuel for inputs produced by `dumpChars`. -/
def parseJson : Nat → List Char → Option (Json × List Char)
  | 0, _ => none
  | _ + 1, [] => none
  | f + 1, c :: cs =>
    if c = 'n' then (expectChars ['u', 'l', 'l'] cs).map (fun r => (.null, r))
    else if c = 't' then (expectChars ['r', 'u', 'e'] cs).map (fun r => (.bool true, r))
    else if c = 'f' then (expectChars ['a', 'l', 's', 'e'] cs).map (fun r => (.bool false, r))
    else if c = '"' then (parseStringBody cs).map (fun p => (.str (String.mk p.1), p.2))
    else if c = '[' then
      match cs with
      | [] => none
      | d :: r =>
        if d = ']' then some (.arr [], r)
        else (parseElems f (d :: r)).map (fun p => (.arr p.1, p.2))
    else if c = '\x7b' then
      match cs with
      | [] => none
      | d :: r =>
        if d = '\x7d' then some (.obj [], r)
        else (parseMembers f (d :: r)).map (fun p => (.obj p.1, p.2))
    else if c = '-' then
      match cs with
      | [] => none
      | d :: r =>
        if d.isDigit then
          let p := parseNatAux (d :: r) 0
          some (.num (-(p.1 : Int)), p.2)
        else none
    else if c.isDigit then
      let p := parseNatAux (c :: cs) 0
      some (.num (p.1 : Int), p.2)
    else none

/-- Parse the elements of a non-empty array after the opening `[`. -/
def parseElems : Nat → List Char → Option (List Json × List Char)
  | 0, _ => none
  | f + 1, cs =>
    match parseJson f cs with
    | none => none
    | some (j, r) =>
      match r with
      | [] => none
      | c :: r2 =>
        if c = ']' then some ([j], r2)
        else if c = ',' then
          match expectChar ' ' r2 with
          | none => none
          | some r3 =>
            match parseElems f r3 with
            | none => none
            | some (l, r4) => some (j :: l, r4)
        else none

/-- Parse the members of a non-empty object after the opening brace. -/
def parseMembers : Nat → List Char → Option (List (String × Json) × List Char)
  | 0, _ => none
  | f + 1, cs =>
    match cs with
    | [] => none
    | c :: r0 =>
      if c = '"' then
        match parseStringBody r0 with
        | none => none
        | some (k, r1) =>
          match expectChar ':' r1 with
          | none => none
          | some r2 =>
            match expectChar ' ' r2 with
            | none => none
            | some r3 =>
              match parseJson f r3 with
              | none => none
              | some (v, r4) =>
                match r4 with
                | [] => none
                | c2 :: r5 =>
                  if c2 = '\x7d' then some ([(String.mk k, v)], r5)
                  else if c2 = ',' then
                    match expectChar ' ' r5 with
                    | none => none
                    | some r6 =>
                      match parseMembers f r6 with
                      | none => none
                      | some (l, r7) => some ((String.mk k, v) :: l, r7)
                  else none
      else none

end

/-- `json.loads` on a whole document: parse one value and require the entire
input to be consumed. -/
def parseTop (s : String) : Option Json :=
  match parseJson s.data.length s.data with
  | some (j, []) => some j
  | _ => none

/-- Two strings are JSON-equivalent when they decode to the same payload
(or both fail to decode). -/
def jsonEquiv (a b : String) : Prop :=
  parseTop a = parseTop b

/-- Holds when the input does not begin with a decimal digit, so a maximal
digit run ending right before it is parsed completely. -/
def notDigitStart : List Char → Bool
  | [] => true
  | c :: _ => !c.isDigit

mutual

/-- Fuel sufficient for `parseJson` on the rendering of a value. -/
def jsize : Json → Nat
  | .arr l => 1 + lsize l
  | .obj l => 1 + msize l
  | _ => 1

/-- Fuel sufficient for `parseElems` on the rendering of array elements. -/
def lsize : List Json → Nat
  | j :: tl => 1 + max (jsize j) (lsize tl)
  | [] => 1

/-- Fuel sufficient for `parseMembers` on the rendering of object members. -/
def msize : List (String × Json) → Nat
  | kv :: tl => 1 + max (jsize kv.2) (msize tl)
  | [] => 1

end

/-! ### Python-level failure modes

The exceptions the two modules can raise, plus the `ApiError` the spec
describes (which no code in the repository defines or raises — it is in the
type so that the spec's expectation is statable). -/

inductive PyError where
  | typeError : PyError
  | attributeError (name : String) : PyError
  | keyError (key : String) : PyError
  | jsonDecodeError : PyError
  | apiError (status : Nat) (body : String) : PyError

/-! ### HTTP model -/

/-- A GET request as `requests.get(url, params=..., timeout=...)` issues it.
`timeout = none` models a call without the `timeout` argument (the
`requests` default: no bound). -/
structure HttpRequest where
  url : String
  params : List (String × String)
  timeout : Option (Nat × Nat)

/-- A mocked HTTP response: status code and raw body text. -/
structure HttpResponse where
  status_code : Nat
  body : String

/-- Python dict lookup on an association list built left to right, where a
later binding for the same key overrides an earlier one (the effect of
`dict.update`). -/
def dictGet (l : List (String × String)) (k : String) : Option String :=
  l.foldl (fun acc kv => if kv.1 = k then some kv.2 else acc) none

/-- `response.json()`: decode the body, raising `json.JSONDecodeError` when
it is not valid JSON.  The status code is not consulted. -/
def responseJson (resp : HttpResponse) : Except PyError Json :=
  match parseTop resp.body with
  | some j => .ok j
  | none => .error .jsonDecodeError

/-! ### Environment (`os.environ` / `os.getenv`) -/

/-- The process environment as an association list. -/
abbrev Env := List (String × String)

/-- `os.environ[k]`: raises `KeyError(k)` when the variable is absent. -/
def osEnviron (env : Env) (k : String) : Except PyError String :=
  match List.lookup k env with
  | some v => .ok v
  | none => .error (.keyError k)

/-- `os.getenv(k, default)`. -/
def osGetenv (env : Env) (k d : String) : String :=
  (List.lookup k env).getD d

/-! ### `ApiNames` (extract.py, lines 15-57) — the URL constant table
(restricted to the constants the claims touch). -/

def ApiNames.BASE_URL : String := "https://api.nytimes.com/svc"

def ApiNames.BASE_POPULAR : String := ApiNames.BASE_URL ++ "/mostpopular/v2"

def ApiNames.BASE_POPULAR_EMAILED : String := ApiNames.BASE_POPULAR ++ "/emailed"

def ApiNames.BASE_POPULAR_SHARED : String := ApiNames.BASE_POPULAR ++ "/shared"

def ApiNames.BASE_POPULAR_VIEWED : String := ApiNames.BASE_POPULAR ++ "/viewed"

def ApiNames.BASE_WIRE : String := ApiNames.BASE_URL ++ "/news/v3/content"

def ApiNames.BASE_WIRE_LATEST : String := ApiNames.BASE_WIRE ++ ".json"

def ApiNames.BASE_WIRE_SECTION_LIST : String := ApiNames.BASE_WIRE ++ "/section-list.json"

/-! ### `ApiNyTimes` (extract.py, lines 60-114) -/

/-- The attributes `ApiNyTimes.__init__` sets. -/
structure ApiNyTimesState where
  API_KEY : String
  PATH_STORAGE : String
  URI : Option String

/-- `ApiNyTimes.__init__`: reads `os.environ["NY_API_KEY"]` first (raising
`KeyError` when absent, before anything else happens), then fills the
defaults. -/
def ApiNyTimes.init (env : Env) (path_storage uri : Option String) :
    Except PyError ApiNyTimesState :=
  match osEnviron env ("NY_API_KEY") with
  | .error e => .error e
  | .ok key =>
    .ok { API_KEY := key, PATH_STORAGE := path_storage.getD ("../../data/raw/"), URI := uri }

/-- Number of required positional parameters of `ApiNyTimes._get_data`
besides `self`: `url` and `payload`, neither of which has a default. -/
def ApiNyTimes.get_data_required_argc : Nat := 2

/-- The request `ApiNyTimes._get_data` issues when called with both
arguments: `params` starts from the `api-key` binding and is then
`update`d with `payload`; the timeout is the fixed pair `(10, 30)`. -/
def ApiNyTimes.get_data_request (st : ApiNyTimesState) (url : String)
    (payload : Option (List (String × String))) : HttpRequest :=
  { url := url
    params := ("api-key", st.API_KEY) :: payload.getD []
    timeout := some (10, 30) }

/-- What `ApiNyTimes._get_data` returns for a response: `response.json()`,
with no inspection of `response.status_code`. -/
def ApiNyTimes.get_data_result (resp : HttpResponse) : Except PyError Json :=
  responseJson resp

/-- The `(path, contents)` pair `ApiNyTimes._save_data` writes:
`PATH_STORAGE + filename`, and the `json.dump` serialization of `data`. -/
def ApiNyTimes.save_data_file (st : ApiNyTimesState) (filename : String)
    (data : Json) : String × String :=
  (st.PATH_STORAGE ++ filename, Json.dumpString data)

/-- One `_get_data`-then-`_save_data` cycle: a decode failure propagates out
of `_get_data` and nothing is written; otherwise `_save_data` writes the
serialized payload. -/
def ApiNyTimes.fetch_and_save (st : ApiNyTimesState) (resp : HttpResponse)
    (filename : String) : Except PyError (String × String) :=
  match ApiNyTimes.get_data_result resp with
  | .error e => .error e
  | .ok j => .ok (ApiNyTimes.save_data_file st filename j)

/-! ### Python call semantics for the `self._get_data(url)` call sites

Every fetch method in `extract.py` passes a single positional argument to
`_get_data`.  Binding the arguments of a Python call happens before the
body runs: too few positional arguments raise `TypeError` immediately, so
the body — and with it the HTTP request — is never reached. -/

/-- A call to `_get_data` with `supplied` positional arguments against its
`required` parameter count.  The result pairs the request that was issued
(if any) with the outcome; the body is a thunk, evaluated only when the
arguments bind. -/
def pyCallFetch (required supplied : Nat)
    (body : Unit → Option HttpRequest × Except PyError Json) :
    Option HttpRequest × Except PyError Json :=
  if supplied < required then (none, .error .typeError) else body ()

/-- Body a `MostPopular`/`TimesWire` fetch would run if its `_get_data`
call ever bound: both classes skip `ApiNyTimes.__init__`, so `self.API_KEY`
is unset and building `params` would raise `AttributeError` — still before
any request. -/
def missingKeyBody : Unit → Option HttpRequest × Except PyError Json :=
  fun _ => (none, .error (.attributeError ("API_KEY")))

/-! ### `MostPopular` (extract.py, lines 117-162) -/

/-- The attributes `MostPopular.__init__` sets (it does NOT call
`ApiNyTimes.__init__`, so neither `API_KEY` nor `PATH_STORAGE` exists). -/
structure MostPopularState where
  URI : String
  endpoints : List (String × String)

/-- The state `MostPopular()` constructs. -/
def MostPopular.initState : MostPopularState :=
  { URI := ApiNames.BASE_POPULAR
    endpoints :=
      [("emailed", ApiNames.BASE_POPULAR_EMAILED),
       ("shared", ApiNames.BASE_POPULAR_SHARED),
       ("viewed", ApiNames.BASE_POPULAR_VIEWED)] }

/-- `MostPopular.__init__`: reads no environment variable and issues no
request; construction always succeeds. -/
def MostPopular.init (_env : Env) : Except PyError MostPopularState :=
  .ok MostPopular.initState

/-- URL composed by `MostPopular.get_content`:
`url = endpoint + f"/{period}.json"` — the raw `endpoint` argument string,
not a lookup in `self.endpoints`. -/
def MostPopular.get_content_url (endpoint : String) (period : Int) : String :=
  endpoint ++ "/" ++ String.mk (intToChars period) ++ ".json"

/-- URL composed by `MostPopular.get_emailed`:
`self.endpoints["emailed"] + f"/{period}.json"` (the key is statically
present in the dict `__init__` builds). -/
def MostPopular.get_emailed_url (st : MostPopularState) (period : Int) : String :=
  (st.endpoints.lookup ("emailed")).getD ("") ++ "/" ++ String.mk (intToChars period) ++ ".json"

/-- URL composed by `MostPopular.get_shared`. -/
def MostPopular.get_shared_url (st : MostPopularState) (period : Int) : String :=
  (st.endpoints.lookup ("shared")).getD ("") ++ "/" ++ String.mk (intToChars period) ++ ".json"

/-- URL composed by `MostPopular.get_viewed`. -/
def MostPopular.get_viewed_url (st : MostPopularState) (period : Int) : String :=
  (st.endpoints.lookup ("viewed")).getD ("") ++ "/" ++ String.mk (intToChars period) ++ ".json"

/-- `MostPopular.get_content`: composes the URL, then evaluates
`self._get_data(url)` — one positional argument for two required
parameters. -/
def MostPopular.get_content_call (_st : MostPopularState) (endpoint : String)
    (period : Int) : Option HttpRequest × Except PyError Json :=
  let _url := MostPopular.get_content_url endpoint period
  pyCallFetch ApiNyTimes.get_data_required_argc 1 missingKeyBody

/-- `MostPopular.get_emailed`: same single-argument `self._get_data(url)`. -/
def MostPopular.get_emailed_call (st : MostPopularState) (period : Int) :
    Option HttpRequest × Except PyError Json :=
  let _url := MostPopular.get_emailed_url st period
  pyCallFetch ApiNyTimes.get_data_required_argc 1 missingKeyBody

/-- `MostPopular.get_shared`: same single-argument `self._get_data(url)`. -/
def MostPopular.get_shared_call (st : MostPopularState) (period : Int) :
    Option HttpRequest × Except PyError Json :=
  let _url := MostPopular.get_shared_url st period
  pyCallFetch ApiNyTimes.get_data_required_argc 1 missingKeyBody

/-- `MostPopular.get_viewed`: same single-argument `self._get_data(url)`. -/
def MostPopular.get_viewed_call (st : MostPopularState) (period : Int) :
    Option HttpRequest × Except PyError Json :=
  let _url := MostPopular.get_viewed_url st period
  pyCallFetch ApiNyTimes.get_data_required_argc 1 missingKeyBody

/-- Filename composed by `MostPopular.save_content`:
`f"most_popular_{endpoint}_{period}d_{_today.month}_{_today.day}.json"`. -/
def MostPopular.save_content_filename (endpoint : String) (period : Int)
    (month day : Nat) : String :=
  "most_popular_" ++ endpoint ++ "_" ++ String.mk (intToChars period) ++ "d_"
    ++ String.mk (natToChars month) ++ "_" ++ String.mk (natToChars day) ++ ".json"

/-! ### `TimesWire` (extract.py, lines 165-233) -/

/-- The `endpoints` dict `TimesWire.__init__` builds. -/
def TimesWire.endpointsDict : List (String × String) :=
  [("content", ApiNames.BASE_WIRE),
   ("latest", ApiNames.BASE_WIRE_LATEST),
   ("section_list", ApiNames.BASE_WIRE_SECTION_LIST)]

/-- The attributes `TimesWire.__init__` would set if it completed (it never
does: see `TimesWire.init`). -/
structure TimesWireState where
  URI : String
  endpoints : List (String × String)
  sections : Json

/-- URL composed by `TimesWire.get_content`:
`self.endpoints["content"] + f"/{source}/{section}.json"`. -/
def TimesWire.get_content_url (endpoints : List (String × String))
    (src sec : String) : String :=
  (endpoints.lookup ("content")).getD ("") ++ "/" ++ src ++ "/" ++ sec ++ ".json"

/-- `TimesWire.get_content`: composes the URL, then evaluates
`self._get_data(url)` — one positional argument. -/
def TimesWire.get_content_call (endpoints : List (String × String))
    (src sec : String) : Option HttpRequest × Except PyError Json :=
  let _url := TimesWire.get_content_url endpoints src sec
  pyCallFetch ApiNyTimes.get_data_required_argc 1 missingKeyBody

/-- `TimesWire.get_section_list`: reads `self.endpoints["section_list"]`,
then evaluates `self._get_data(url)` — one positional argument. -/
def TimesWire.get_section_list_call (endpoints : List (String × String)) :
    Option HttpRequest × Except PyError Json :=
  let _url := (endpoints.lookup ("section_list")).getD ("")
  pyCallFetch ApiNyTimes.get_data_required_argc 1 missingKeyBody

/-- `TimesWire.__init__`: sets `URI` and `endpoints`, then runs
`self.sections = self.get_section_list()`; whatever that call raises
propagates out of the constructor. -/
def TimesWire.init (_env : Env) : Option HttpRequest × Except PyError TimesWireState :=
  match TimesWire.get_section_list_call TimesWire.endpointsDict with
  | (req, .error e) => (req, .error e)
  | (req, .ok sections) =>
    (req, .ok { URI := ApiNames.BASE_WIRE, endpoints := TimesWire.endpointsDict,
                sections := sections })

/-! ### `ExtractApiNewsWire` (api_newswire.py) -/

/-- Python truthiness of an optional string: `None` and `""` are falsy,
every other string is truthy. -/
def truthyStr : Option String → Bool
  | none => false
  | some s => !(s == "")

/-- Python `f"{x}"` on a `str | None` value: `None` renders as `"None"`. -/
def pyStr : Option String → String
  | none => "None"
  | some s => s

/-- The characters of `base` up to the end of its network location:
`"https://host/..."` becomes `"https://host"`. -/
def takeNetloc : List Char → List Char
  | [] => []
  | c :: cs => if c = '/' then [] else c :: takeNetloc cs

/-- Scheme and network location of a URL, as characters. -/
def schemeNetlocChars : List Char → List Char
  | ':' :: '/' :: '/' :: rest => ':' :: '/' :: '/' :: takeNetloc rest
  | c :: cs => c :: schemeNetlocChars cs
  | [] => []

/-- `urllib.parse.urljoin(base, path)` for the one case this code exercises:
`path` is an absolute path (starts with `/`), so the result is the scheme
and host of `base` followed by `path`. -/
def urljoinAbs (base path : String) : String :=
  String.mk (schemeNetlocChars base.data) ++ path

/-- The attributes `ExtractApiNewsWire.__init__` sets. -/
structure ExtractApiNewsWireState where
  API_KEY : String
  BASE_URL : String
  repo_path : Option String

/-- `ExtractApiNewsWire.__init__`: reads `os.environ["NY_API_KEY"]` first
(raising `KeyError` when absent), then `os.getenv("BASE_URL", ...)` with
the production host as default. -/
def ExtractApiNewsWire.init (env : Env) (repo_path : Option String) :
    Except PyError ExtractApiNewsWireState :=
  match osEnviron env ("NY_API_KEY") with
  | .error e => .error e
  | .ok key =>
    .ok { API_KEY := key
          BASE_URL := osGetenv env ("BASE_URL") ("https://api.nytimes.com/")
          repo_path := repo_path }

/-- The `url_path` conditional in `ExtractApiNewsWire.get_data`: the
section-list path whenever `endpoint` is truthy, otherwise the content path
interpolating `source` and `section` (rendering `None` as `"None"`). -/
def ExtractApiNewsWire.get_data_url_path (endpoint src sec : Option String) : String :=
  if truthyStr endpoint then "/svc/news/v3/content/section-list.json"
  else "/svc/news/v3/content/" ++ pyStr src ++ "/" ++ pyStr sec ++ ".json"

/-- The request `ExtractApiNewsWire.get_data` issues: `urljoin` of the base
and the path, the `api-key` parameter, and `requests.get` without a
`timeout` argument. -/
def ExtractApiNewsWire.get_data_request (st : ExtractApiNewsWireState)
    (endpoint src sec : Option String) : HttpRequest :=
  { url := urljoinAbs st.BASE_URL (ExtractApiNewsWire.get_data_url_path endpoint src sec)
    params := [("api-key", st.API_KEY)]
    timeout := none }

/-- What `ExtractApiNewsWire.get_data` returns for a response:
`response.json()`, with no inspection of `response.status_code`. -/
def ExtractApiNewsWire.get_data_result (resp : HttpResponse) : Except PyError Json :=
  responseJson resp

/-- Filename composed by `ExtractApiNewsWire.save_data`; `ts` stands for
`datetime.now().strftime("%y_%m_%d-%H_%M_%S")` (wall-clock time is passed
in as a parameter).  Each truthy parameter contributes a `-{value}`
segment, in call order; falsy ones contribute nothing. -/
def ExtractApiNewsWire.save_data_filename (ts : String)
    (endpoint src sec : Option String) : String :=
  "newswire-" ++ ts
    ++ (if truthyStr endpoint then "-" ++ pyStr endpoint else "")
    ++ (if truthyStr src then "-" ++ pyStr src else "")
    ++ (if truthyStr sec then "-" ++ pyStr sec else "")
    ++ ".json"

/-- The `(path, contents)` pair `ExtractApiNewsWire.save_data` writes:
under `repo_path` when that is truthy, else under the default directory;
contents are the `json.dump` serialization of `data`. -/
def ExtractApiNewsWire.save_data_file (st : ExtractApiNewsWireState) (ts : String)
    (endpoint src sec : Option String) (data : Json) : String × String :=
  let filename := ExtractApiNewsWire.save_data_filename ts endpoint src sec
  let filepath :=
    if truthyStr st.repo_path then pyStr st.repo_path ++ filename
    else "../../assets/data/raw/" ++ filename
  (filepath, Json.dumpString data)

/-! ### The spec's filename policy (for comparison only) -/

/-- Modelled from the spec: the filename policy of section 4.2,
`<prefix>-<yy_MM_dd-HH_mm_ss>-<param1>_<param2>...json` — a fixed label,
a dash, the timestamp, a dash, then the supplied parameter values joined
with underscores, ending in `.json`.  Used only to compare the filenames
the code computes against the spec's words. -/
def specFilenamePolicy (pre ts : String) (params : List String) : String :=
  pre ++ "-" ++ ts ++ "-" ++ String.intercalate ("_") params ++ ".json"

/-! ### Concrete fixtures for counterexamples and witnesses -/

/-- A mocked 404 response whose body is valid JSON. -/
def resp404 : HttpResponse :=
  { status_code := 404, body := "\x7b\"fault\": \"not found\"\x7d" }

/-- The payload of `resp404`. -/
def j404 : Json := Json.obj [("fault", Json.str ("not found"))]

/-- A mocked 502 response whose body is valid JSON. -/
def resp502 : HttpResponse :=
  { status_code := 502, body := "\x7b\"fault\": \"bad gateway\"\x7d" }

/-- The payload of `resp502`. -/
def j502 : Json := Json.obj [("fault", Json.str ("bad gateway"))]

/-- The spec's mocked valid body, on a 200 response. -/
def respOK : HttpResponse :=
  { status_code := 200, body := "\x7b\"status\": \"OK\", \"results\": []\x7d" }

/-- The payload of `respOK`. -/
def jOK : Json := Json.obj [("status", Json.str ("OK")), ("results", Json.arr [])]

/-- A concrete `ApiNyTimes` state (as `ApiNyTimes.init` would build it with
`NY_API_KEY=testkey` and default arguments). -/
def stFix : ApiNyTimesState :=
  { API_KEY := "testkey", PATH_STORAGE := "../../data/raw/", URI := none }

/-- A concrete `ExtractApiNewsWire` state (default `BASE_URL`, no
`repo_path`). -/
def stFixN : ExtractApiNewsWireState :=
  { API_KEY := "testkey", BASE_URL := "https://api.nytimes.com/", repo_path := none }

/-! ## Supporting lemmas -/

theorem str_data_append (a b : String) : (a ++ b).data = a.data ++ b.data := rfl

theorem isDigit_ne_of (c x : Char) (h : c.isDigit = true) (hx : x.isDigit = false) :
    c ≠ x := by
  rintro rfl
  rw [h] at hx
  exact Bool.noConfusion hx

theorem digitToChar_isDigit (d : Nat) : (digitToChar d).isDigit = true := by
  unfold digitToChar
  split_ifs <;> decide

theorem digitToChar_val (d : Nat) (h : d < 10) : (digitToChar d).toNat - 48 = d := by
  interval_cases d <;> decide

theorem parseNatAux_stop (rest : List Char) (acc : Nat)
    (h : notDigitStart rest = true) : parseNatAux rest acc = (acc, rest) := by
  cases rest with
  | nil => rfl
  | cons c r =>
    simp only [notDigitStart, Bool.not_eq_true'] at h
    simp [parseNatAux, h]

theorem parseNatAux_run (ds : List Char) (rest : List Char) (acc : Nat)
    (hr : notDigitStart rest = true) (hd : ∀ c ∈ ds, c.isDigit = true) :
    parseNatAux (ds ++ rest) acc
      = (ds.foldl (fun a c => 10 * a + (c.toNat - 48)) acc, rest) := by
  induction ds generalizing acc with
  | nil => simpa using parseNatAux_stop rest acc hr
  | cons c ds ih =>
    have hc : c.isDigit = true := hd c (List.mem_cons_self ..)
    rw [List.cons_append]
    simp only [parseNatAux, hc, if_true, List.foldl_cons]
    exact ih _ (fun x hx => hd x (List.mem_cons_of_mem _ hx))

theorem natToCharsAux_digits (fuel m : Nat) :
    ∀ c ∈ natToCharsAux fuel m, c.isDigit = true := by
  induction fuel generalizing m with
  | zero =>
    intro c hc
    simp [natToCharsAux] at hc
  | succ fuel ih =>
    intro c hc
    by_cases h0 : m = 0
    · simp [natToCharsAux, h0] at hc
    · simp only [natToCharsAux, if_neg h0] at hc
      rw [List.mem_append] at hc
      rcases hc with hc | hc
      · exact ih (m / 10) c hc
      · simp only [List.mem_singleton] at hc
        subst hc
        exact digitToChar_isDigit _

theorem natToChars_digits (m : Nat) : ∀ c ∈ natToChars m, c.isDigit = true := by
  intro c hc
  unfold natToChars at hc
  split at hc
  · simp only [List.mem_singleton] at hc
    subst hc
    decide
  · exact natToCharsAux_digits m m c hc

theorem natToCharsAux_ne_nil (fuel m : Nat) (hm : m ≠ 0) (hf : m ≤ fuel) :
    natToCharsAux fuel m ≠ [] := by
  cases fuel with
  | zero => omega
  | succ fuel =>
    simp only [natToCharsAux, if_neg hm]
    simp

theorem natToChars_ne_nil (m : Nat) : natToChars m ≠ [] := by
  unfold natToChars
  split
  · simp
  · next h => exact natToCharsAux_ne_nil m m h (le_refl m)

theorem foldl_natToCharsAux (fuel m : Nat) (hf : m ≤ fuel) :
    (natToCharsAux fuel m).foldl (fun a c => 10 * a + (c.toNat - 48)) 0 = m := by
  induction fuel generalizing m with
  | zero =>
    have h0 : m = 0 := by omega
    subst h0
    rfl
  | succ fuel ih =>
    by_cases h0 : m = 0
    · subst h0
      rfl
    · rw [show natToCharsAux (fuel + 1) m
            = natToCharsAux fuel (m / 10) ++ [digitToChar (m % 10)] from by
          simp [natToCharsAux, h0],
        List.foldl_append, ih (m / 10) (by omega)]
      simp only [List.foldl_cons, List.foldl_nil]
      rw [digitToChar_val (m % 10) (by omega)]
      omega

theorem parseNatAux_natToChars (m : Nat) (rest : List Char)
    (hr : notDigitStart rest = true) :
    parseNatAux (natToChars m ++ rest) 0 = (m, rest) := by
  rw [parseNatAux_run (natToChars m) rest 0 hr (natToChars_digits m)]
  unfold natToChars
  split
  · next h => subst h; rfl
  · next h => rw [foldl_natToCharsAux m m (le_refl m)]

theorem parseStringBody_escape (l rest : List Char) :
    parseStringBody (escapeString l ++ ('"' :: rest)) = some (l, rest) := by
  induction l with
  | nil =>
    show parseStringBody ('"' :: rest) = some ([], rest)
    rw [parseStringBody.eq_def]
    rfl
  | cons c l ih =>
    have hstep : escapeString (c :: l) ++ ('"' :: rest)
        = escapeChar c ++ (escapeString l ++ ('"' :: rest)) := by
      simp [escapeString, List.append_assoc]
    rw [hstep]
    by_cases hq : c = '"'
    · subst hq
      rw [show escapeChar '"' = ['\\', '"'] from rfl, List.cons_append,
        List.cons_append, List.nil_append, parseStringBody.eq_def]
      simp [ih]
    · by_cases hb : c = '\\'
      · subst hb
        rw [show escapeChar '\\' = ['\\', '\\'] from rfl, List.cons_append,
          List.cons_append, List.nil_append, parseStringBody.eq_def]
        simp [ih]
      · rw [show escapeChar c = [c] from by simp [escapeChar, hq, hb],
          List.cons_append, List.nil_append, parseStringBody.eq_def]
        simp [hq, hb, ih]

theorem parseJson_natEntry (f m : Nat) (rest : List Char)
    (hr : notDigitStart rest = true) :
    parseJson (f + 1) (natToChars m ++ rest) = some (.num (m : Int), rest) := by
  obtain ⟨c, cs, hc⟩ := List.exists_cons_of_ne_nil (natToChars_ne_nil m)
  have hdig : c.isDigit = true :=
    natToChars_digits m c (by rw [hc]; exact List.mem_cons_self ..)
  have hrun : parseNatAux (c :: (cs ++ rest)) 0 = (m, rest) := by
    rw [← List.cons_append, ← hc]
    exact parseNatAux_natToChars m rest hr
  rw [hc, List.cons_append, parseJson.eq_def]
  simp only []
  rw [if_neg (isDigit_ne_of c 'n' hdig (by decide)),
      if_neg (isDigit_ne_of c 't' hdig (by decide)),
      if_neg (isDigit_ne_of c 'f' hdig (by decide)),
      if_neg (isDigit_ne_of c '"' hdig (by decide)),
      if_neg (isDigit_ne_of c '[' hdig (by decide)),
      if_neg (isDigit_ne_of c '\x7b' hdig (by decide)),
      if_neg (isDigit_ne_of c '-' hdig (by decide)),
      if_pos hdig]
  simp only [hrun]

theorem parseJson_negEntry (f m : Nat) (rest : List Char)
    (hr : notDigitStart rest = true) :
    parseJson (f + 1) ('-' :: (natToChars m ++ rest))
      = some (.num (-(m : Int)), rest) := by
  obtain ⟨c, cs, hc⟩ := List.exists_cons_of_ne_nil (natToChars_ne_nil m)
  have hdig : c.isDigit = true :=
    natToChars_digits m c (by rw [hc]; exact List.mem_cons_self ..)
  have hrun : parseNatAux (c :: (cs ++ rest)) 0 = (m, rest) := by
    rw [← List.cons_append, ← hc]
    exact parseNatAux_natToChars m rest hr
  rw [hc, List.cons_append, parseJson.eq_def]
  simp only []
  rw [if_neg (by decide : ¬('-' = 'n')), if_neg (by decide : ¬('-' = 't')),
      if_neg (by decide : ¬('-' = 'f')), if_neg (by decide : ¬('-' = '"')),
      if_neg (by decide : ¬('-' = '[')), if_neg (by decide : ¬('-' = '\x7b'))]
  simp only [if_true, hdig, hrun]

theorem dumpElems_notDigitStart (tl : List Json) (rest : List Char) :
    notDigitStart (dumpElems tl ++ rest) = true := by
  cases tl <;> rfl

theorem dumpMembers_notDigitStart (tl : List (String × Json)) (rest : List Char) :
    notDigitStart (dumpMembers tl ++ rest) = true := by
  cases tl <;> rfl

theorem dumpChars_cons (j : Json) :
    ∃ c cs, dumpChars j = c :: cs ∧ c ≠ ']' ∧ c ≠ '\x7d' := by
  cases j with
  | null => exact ⟨'n', _, rfl, by decide, by decide⟩
  | bool b =>
    cases b with
    | false => exact ⟨'f', _, rfl, by decide, by decide⟩
    | true => exact ⟨'t', _, rfl, by decide, by decide⟩
  | num n =>
    simp only [dumpChars]
    unfold intToChars
    split
    · exact ⟨'-', _, rfl, by decide, by decide⟩
    · obtain ⟨c, cs, hc⟩ := List.exists_cons_of_ne_nil (natToChars_ne_nil n.toNat)
      have hdig : c.isDigit = true :=
        natToChars_digits _ c (by rw [hc]; exact List.mem_cons_self ..)
      exact ⟨c, cs, hc, isDigit_ne_of c ']' hdig (by decide),
        isDigit_ne_of c '\x7d' hdig (by decide)⟩
  | str s => exact ⟨'"', _, rfl, by decide, by decide⟩
  | arr l =>
    cases l with
    | nil => exact ⟨'[', _, rfl, by decide, by decide⟩
    | cons j tl => exact ⟨'[', _, rfl, by decide, by decide⟩
  | obj l =>
    cases l with
    | nil => exact ⟨'\x7b', _, rfl, by decide, by decide⟩
    | cons m tl => exact ⟨'\x7b', _, rfl, by decide, by decide⟩

theorem jsize_pos (j : Json) : 1 ≤ jsize j := by
  cases j with
  | null => exact le_refl 1
  | bool b => exact le_refl 1
  | num n => exact le_refl 1
  | str s => exact le_refl 1
  | arr l =>
    have h : jsize (.arr l) = 1 + lsize l := rfl
    omega
  | obj l =>
    have h : jsize (.obj l) = 1 + msize l := rfl
    omega

theorem lsize_pos (l : List Json) : 1 ≤ lsize l := by
  cases l with
  | nil => exact le_refl 1
  | cons j tl =>
    have h : lsize (j :: tl) = 1 + max (jsize j) (lsize tl) := rfl
    omega

theorem msize_pos (l : List (String × Json)) : 1 ≤ msize l := by
  cases l with
  | nil => exact le_refl 1
  | cons m tl =>
    obtain ⟨k, v⟩ := m
    have h : msize ((k, v) :: tl) = 1 + max (jsize v) (msize tl) := rfl
    omega

theorem parse_dump_all : ∀ f : Nat,
    (∀ (j : Json) (rest : List Char), jsize j ≤ f → notDigitStart rest = true →
      parseJson f (dumpChars j ++ rest) = some (j, rest)) ∧
    (∀ (j : Json) (tl : List Json) (rest : List Char), lsize (j :: tl) ≤ f →
      parseElems f (dumpChars j ++ (dumpElems tl ++ rest)) = some (j :: tl, rest)) ∧
    (∀ (k : String) (v : Json) (tl : List (String × Json)) (rest : List Char),
      msize ((k, v) :: tl) ≤ f →
      parseMembers f (dumpMember (k, v) ++ (dumpMembers tl ++ rest))
        = some ((k, v) :: tl, rest)) := by
  intro f
  induction f using Nat.strong_induction_on with
  | _ f ih =>
  cases f with
  | zero =>
    refine ⟨fun j rest hj _ => absurd hj (by have := jsize_pos j; omega),
            fun j tl rest h => absurd h (by have := lsize_pos (j :: tl); omega),
            fun k v tl rest h => absurd h (by have := msize_pos ((k, v) :: tl); omega)⟩
  | succ g =>
  obtain ⟨IH1, IH2, IH3⟩ := ih g (Nat.lt_succ_self g)
  refine ⟨?_, ?_, ?_⟩
  · -- parseJson on a dumped value
    intro j rest hj hr
    cases j with
    | null => rfl
    | bool b => cases b with | false => rfl | true => rfl
    | num n =>
      rw [show dumpChars (.num n) = intToChars n from rfl]
      unfold intToChars
      split
      · next hneg =>
        rw [List.cons_append, parseJson_negEntry g n.natAbs rest hr,
          show -(n.natAbs : Int) = n from by omega]
      · next hpos =>
        rw [parseJson_natEntry g n.toNat rest hr,
          show ((n.toNat : Nat) : Int) = n from by omega]
    | str s =>
      rw [show dumpChars (.str s) ++ rest = '"' :: (escapeString s.data ++ ('"' :: rest)) from by
            show ('"' :: (escapeString s.data ++ ['"'])) ++ rest = _
            simp [List.append_assoc],
        show parseJson (g + 1) ('"' :: (escapeString s.data ++ ('"' :: rest)))
            = (parseStringBody (escapeString s.data ++ ('"' :: rest))).map
                (fun p => (Json.str (String.mk p.1), p.2)) from rfl,
        parseStringBody_escape]
      rfl
    | arr l =>
      cases l with
      | nil => rfl
      | cons j1 tl =>
        obtain ⟨c, cs, hc, hne1, _⟩ := dumpChars_cons j1
        rw [show dumpChars (.arr (j1 :: tl)) ++ rest
              = '[' :: (c :: (cs ++ (dumpElems tl ++ rest))) from by
            show ('[' :: (dumpChars j1 ++ dumpElems tl)) ++ rest = _
            rw [hc]
            simp [List.append_assoc],
          show parseJson (g + 1) ('[' :: (c :: (cs ++ (dumpElems tl ++ rest))))
              = if c = ']' then some (Json.arr [], cs ++ (dumpElems tl ++ rest))
                else (parseElems g (c :: (cs ++ (dumpElems tl ++ rest)))).map
                  (fun p => (Json.arr p.1, p.2)) from rfl,
          if_neg hne1,
          show c :: (cs ++ (dumpElems tl ++ rest))
              = dumpChars j1 ++ (dumpElems tl ++ rest) from by rw [hc]; simp,
          IH2 j1 tl rest (by
            have hj' : 1 + lsize (j1 :: tl) ≤ g + 1 := hj
            omega)]
        rfl
    | obj l =>
      cases l with
      | nil => rfl
      | cons m tl =>
        obtain ⟨k, v⟩ := m
        rw [show dumpChars (.obj ((k, v) :: tl)) ++ rest
              = '\x7b' :: ('"' :: ((escapeString k.data
                  ++ ('"' :: ':' :: ' ' :: dumpChars v)) ++ (dumpMembers tl ++ rest))) from by
            show ('\x7b' :: (dumpMember (k, v) ++ dumpMembers tl)) ++ rest = _
            show ('\x7b' :: (('"' :: (escapeString k.data
                ++ ('"' :: ':' :: ' ' :: dumpChars v))) ++ dumpMembers tl)) ++ rest = _
            simp [List.append_assoc],
          show parseJson (g + 1) ('\x7b' :: ('"' :: ((escapeString k.data
                  ++ ('"' :: ':' :: ' ' :: dumpChars v)) ++ (dumpMembers tl ++ rest))))
              = (parseMembers g ('"' :: ((escapeString k.data
                  ++ ('"' :: ':' :: ' ' :: dumpChars v)) ++ (dumpMembers tl ++ rest)))).map
                  (fun p => (Json.obj p.1, p.2)) from rfl,
          show '"' :: ((escapeString k.data ++ ('"' :: ':' :: ' ' :: dumpChars v))
                  ++ (dumpMembers tl ++ rest))
              = dumpMember (k, v) ++ (dumpMembers tl ++ rest) from rfl,
          IH3 k v tl rest (by
            have hj' : 1 + msize ((k, v) :: tl) ≤ g + 1 := hj
            omega)]
        rfl
  · -- parseElems on dumped elements
    intro j tl rest h
    have hjf : jsize j ≤ g := by
      have h' : 1 + max (jsize j) (lsize tl) ≤ g + 1 := h
      omega
    rw [parseElems.eq_def]
    simp only []
    rw [IH1 j (dumpElems tl ++ rest) hjf (dumpElems_notDigitStart tl rest)]
    cases tl with
    | nil => rfl
    | cons j2 tl2 =>
      rw [show dumpElems (j2 :: tl2) ++ rest
            = ',' :: ' ' :: (dumpChars j2 ++ (dumpElems tl2 ++ rest)) from by
          show (',' :: ' ' :: (dumpChars j2 ++ dumpElems tl2)) ++ rest = _
          simp [List.append_assoc]]
      simp only []
      rw [if_neg (by decide : ¬(',' = ']'))]
      simp only [if_true]
      rw [show expectChar ' ' (' ' :: (dumpChars j2 ++ (dumpElems tl2 ++ rest)))
            = some (dumpChars j2 ++ (dumpElems tl2 ++ rest)) from rfl]
      simp only []
      rw [IH2 j2 tl2 rest (by
        have h' : 1 + max (jsize j) (lsize (j2 :: tl2)) ≤ g + 1 := h
        omega)]
  · -- parseMembers on dumped members
    intro k v tl rest h
    have hvf : jsize v ≤ g := by
      have h' : 1 + max (jsize v) (msize tl) ≤ g + 1 := h
      omega
    rw [show dumpMember (k, v) ++ (dumpMembers tl ++ rest)
          = '"' :: (escapeString k.data
              ++ ('"' :: (':' :: ' ' :: (dumpChars v ++ (dumpMembers tl ++ rest))))) from by
        show ('"' :: (escapeString k.data ++ ('"' :: ':' :: ' ' :: dumpChars v)))
            ++ (dumpMembers tl ++ rest) = _
        simp [List.append_assoc],
      parseMembers.eq_def]
    simp only []
    simp only [if_true]
    rw [parseStringBody_escape]
    simp only []
    rw [show expectChar ':' (':' :: ' ' :: (dumpChars v ++ (dumpMembers tl ++ rest)))
          = some (' ' :: (dumpChars v ++ (dumpMembers tl ++ rest))) from rfl]
    simp only []
    rw [show expectChar ' ' (' ' :: (dumpChars v ++ (dumpMembers tl ++ rest)))
          = some (dumpChars v ++ (dumpMembers tl ++ rest)) from rfl]
    simp only []
    rw [IH1 v (dumpMembers tl ++ rest) hvf (dumpMembers_notDigitStart tl rest)]
    simp only []
    cases tl with
    | nil => rfl
    | cons m2 tl2 =>
      obtain ⟨k2, v2⟩ := m2
      rw [show dumpMembers ((k2, v2) :: tl2) ++ rest
            = ',' :: ' ' :: (dumpMember (k2, v2) ++ (dumpMembers tl2 ++ rest)) from by
          show (',' :: ' ' :: (dumpMember (k2, v2) ++ dumpMembers tl2)) ++ rest = _
          simp [List.append_assoc]]
      simp only []
      rw [if_neg (by decide : ¬(',' = '\x7d'))]
      simp only [if_true]
      rw [show expectChar ' ' (' ' :: (dumpMember (k2, v2) ++ (dumpMembers tl2 ++ rest)))
            = some (dumpMember (k2, v2) ++ (dumpMembers tl2 ++ rest)) from rfl]
      simp only []
      rw [IH3 k2 v2 tl2 rest (by
        have h' : 1 + max (jsize v) (msize ((k2, v2) :: tl2)) ≤ g + 1 := h
        omega)]

theorem dump_length_pos (j : Json) : 1 ≤ (dumpChars j).length := by
  obtain ⟨c, cs, hc, _, _⟩ := dumpChars_cons j
  rw [hc]
  simp

theorem dumpElems_length_pos (l : List Json) : 1 ≤ (dumpElems l).length := by
  cases l <;> simp [dumpElems]

theorem dumpMembers_length_pos (l : List (String × Json)) :
    1 ≤ (dumpMembers l).length := by
  cases l with
  | nil => simp [dumpMembers]
  | cons m tl =>
    obtain ⟨k, v⟩ := m
    simp [dumpMembers]

theorem dump_length_all : ∀ n : Nat,
    (∀ j : Json, sizeOf j ≤ n → jsize j ≤ (dumpChars j).length) ∧
    (∀ l : List Json, sizeOf l ≤ n → lsize l ≤ (dumpElems l).length) ∧
    (∀ l : List (String × Json), sizeOf l ≤ n → msize l ≤ (dumpMembers l).length) := by
  intro n
  induction n using Nat.strong_induction_on with
  | _ n ih =>
  refine ⟨?_, ?_, ?_⟩
  · intro j hn
    cases j with
    | null => exact dump_length_pos .null
    | bool b => exact dump_length_pos (.bool b)
    | num m => exact dump_length_pos (.num m)
    | str s => exact dump_length_pos (.str s)
    | arr l =>
      have hsz : sizeOf (Json.arr l) = 1 + sizeOf l := by simp
      have hl : lsize l ≤ (dumpElems l).length :=
        (ih (sizeOf l) (by omega)).2.1 l (le_refl _)
      have h1 : jsize (.arr l) = 1 + lsize l := rfl
      cases l with
      | nil =>
        have h2 : lsize ([] : List Json) = 1 := rfl
        have h3 : (dumpChars (.arr [])).length = 2 := rfl
        omega
      | cons j1 tl =>
        have hsz2 : sizeOf (j1 :: tl) = 1 + sizeOf j1 + sizeOf tl := by simp
        have hj1 : jsize j1 ≤ (dumpChars j1).length :=
          (ih (sizeOf j1) (by omega)).1 j1 (le_refl _)
        have htl : lsize tl ≤ (dumpElems tl).length :=
          (ih (sizeOf tl) (by omega)).2.1 tl (le_refl _)
        have h1' : jsize (.arr (j1 :: tl)) = 1 + (1 + max (jsize j1) (lsize tl)) := rfl
        have h2 : dumpChars (.arr (j1 :: tl)) = '[' :: (dumpChars j1 ++ dumpElems tl) := rfl
        have h6 := dump_length_pos j1
        have h7 := dumpElems_length_pos tl
        rw [h1', h2]
        simp only [List.length_cons, List.length_append]
        omega
    | obj l =>
      have hsz : sizeOf (Json.obj l) = 1 + sizeOf l := by simp
      have hl : msize l ≤ (dumpMembers l).length :=
        (ih (sizeOf l) (by omega)).2.2 l (le_refl _)
      have h1 : jsize (.obj l) = 1 + msize l := rfl
      cases l with
      | nil =>
        have h2 : msize ([] : List (String × Json)) = 1 := rfl
        have h3 : (dumpChars (.obj [])).length = 2 := rfl
        omega
      | cons m tl =>
        obtain ⟨k, v⟩ := m
        have hsz2 : sizeOf ((k, v) :: tl) = 1 + (1 + sizeOf k + sizeOf v) + sizeOf tl := by
          simp
        have hv : jsize v ≤ (dumpChars v).length :=
          (ih (sizeOf v) (by omega)).1 v (le_refl _)
        have htl : msize tl ≤ (dumpMembers tl).length :=
          (ih (sizeOf tl) (by omega)).2.2 tl (le_refl _)
        have h1' : jsize (.obj ((k, v) :: tl)) = 1 + (1 + max (jsize v) (msize tl)) := rfl
        have h2 : dumpChars (.obj ((k, v) :: tl))
            = '\x7b' :: (dumpMember (k, v) ++ dumpMembers tl) := rfl
        have h5 : (dumpChars v).length ≤ (dumpMember (k, v)).length := by
          show _ ≤ ('"' :: (escapeString k.data ++ ('"' :: ':' :: ' ' :: dumpChars v))).length
          simp only [List.length_cons, List.length_append]
          omega
        have h7 := dumpMembers_length_pos tl
        have h8 := dump_length_pos v
        rw [h1', h2]
        simp only [List.length_cons, List.length_append]
        omega
  · intro l hn
    cases l with
    | nil =>
      have h1 : lsize ([] : List Json) = 1 := rfl
      have h2 : (dumpElems ([] : List Json)).length = 1 := rfl
      omega
    | cons j tl =>
      have hsz : sizeOf (j :: tl) = 1 + sizeOf j + sizeOf tl := by simp
      have hj : jsize j ≤ (dumpChars j).length :=
        (ih (sizeOf j) (by omega)).1 j (le_refl _)
      have htl : lsize tl ≤ (dumpElems tl).length :=
        (ih (sizeOf tl) (by omega)).2.1 tl (le_refl _)
      have h1 : lsize (j :: tl) = 1 + max (jsize j) (lsize tl) := rfl
      have h2 : dumpElems (j :: tl) = ',' :: ' ' :: (dumpChars j ++ dumpElems tl) := rfl
      rw [h1, h2]
      simp only [List.length_cons, List.length_append]
      omega
  · intro l hn
    cases l with
    | nil =>
      have h1 : msize ([] : List (String × Json)) = 1 := rfl
      have h2 : (dumpMembers ([] : List (String × Json))).length = 1 := rfl
      omega
    | cons m tl =>
      obtain ⟨k, v⟩ := m
      have hsz : sizeOf ((k, v) :: tl) = 1 + (1 + sizeOf k + sizeOf v) + sizeOf tl := by
        simp
      have hv : jsize v ≤ (dumpChars v).length :=
        (ih (sizeOf v) (by omega)).1 v (le_refl _)
      have htl : msize tl ≤ (dumpMembers tl).length :=
        (ih (sizeOf tl) (by omega)).2.2 tl (le_refl _)
      have h1 : msize ((k, v) :: tl) = 1 + max (jsize v) (msize tl) := rfl
      have h2 : dumpMembers ((k, v) :: tl)
          = ',' :: ' ' :: (dumpMember (k, v) ++ dumpMembers tl) := rfl
      have h5 : (dumpChars v).length ≤ (dumpMember (k, v)).length := by
        show _ ≤ ('"' :: (escapeString k.data ++ ('"' :: ':' :: ' ' :: dumpChars v))).length
        simp only [List.length_cons, List.length_append]
        omega
      rw [h1, h2]
      simp only [List.length_cons, List.length_append]
      omega

theorem jsize_le_dump_length (j : Json) : jsize j ≤ (dumpChars j).length :=
  (dump_length_all (sizeOf j)).1 j (le_refl _)

theorem parseTop_dump (j : Json) : parseTop (Json.dumpString j) = some j := by
  have h := (parse_dump_all ((dumpChars j).length)).1 j [] (jsize_le_dump_length j) rfl
  rw [List.append_nil] at h
  show (match parseJson (dumpChars j).length (dumpChars j) with
        | some (j', []) => some j'
        | _ => none) = some j
  rw [h]

theorem foldl_params_skip (l : List (String × String)) (k : String) :
    (∀ kv ∈ l, kv.1 ≠ k) →
    ∀ acc : Option String,
      List.foldl (fun acc kv => if kv.1 = k then some kv.2 else acc) acc l = acc := by
  induction l with
  | nil =>
    intro _ _
    rfl
  | cons kv tl ih =>
    intro h acc
    simp only [List.foldl_cons]
    rw [if_neg (h kv (List.mem_cons_self ..))]
    exact ih (fun x hx => h x (List.mem_cons_of_mem _ hx)) acc

/-! ## The claims -/

/-- C1, counterexample: on a mocked 404 response whose body is valid JSON,
neither `ApiNyTimes._get_data` nor `ExtractApiNewsWire.get_data` fails with
the spec's `ApiError` — both return the parsed body unchanged — and the
subsequent save step does write a file.  The claim "the fetch operations
fail with ApiError ... and no file is written" is therefore false on the
code. -/
theorem c1_counterexample :
    ApiNyTimes.get_data_result resp404 = .ok j404 ∧
    ExtractApiNewsWire.get_data_result resp404 = .ok j404 ∧
    ApiNyTimes.get_data_result resp404 ≠ .error (.apiError 404 resp404.body) ∧
    (ApiNyTimes.fetch_and_save stFix resp404 ("out.json")).isOk = true := by
  refine ⟨rfl, rfl, ?_, rfl⟩
  intro h
  rw [show ApiNyTimes.get_data_result resp404 = .ok j404 from rfl] at h
  exact Except.noConfusion h

/-- C1, amended: the fetch operations never inspect `status_code` and never
raise an `ApiError`.  For any response whose body is valid JSON — whatever
the status — they return the parsed body, and the subsequent save step
writes the serialized payload to a file; only a body that is not valid JSON
makes them fail, with a JSON decode error. -/
theorem c1_amended (resp : HttpResponse) (st : ApiNyTimesState) (fn : String)
    (j : Json) :
    (parseTop resp.body = some j →
      ApiNyTimes.get_data_result resp = .ok j ∧
      ExtractApiNewsWire.get_data_result resp = .ok j ∧
      ApiNyTimes.fetch_and_save st resp fn
        = .ok (st.PATH_STORAGE ++ fn, Json.dumpString j)) ∧
    (parseTop resp.body = none →
      ApiNyTimes.get_data_result resp = .error .jsonDecodeError ∧
      ExtractApiNewsWire.get_data_result resp = .error .jsonDecodeError) ∧
    (∀ (s : Nat) (b : String),
      ApiNyTimes.get_data_result resp ≠ .error (.apiError s b)) := by
  refine ⟨?_, ?_, ?_⟩
  · intro h
    have h1 : ApiNyTimes.get_data_result resp = .ok j := by
      unfold ApiNyTimes.get_data_result responseJson
      rw [h]
    refine ⟨h1, h1, ?_⟩
    unfold ApiNyTimes.fetch_and_save
    rw [h1]
    rfl
  · intro h
    have h1 : ApiNyTimes.get_data_result resp = .error .jsonDecodeError := by
      unfold ApiNyTimes.get_data_result responseJson
      rw [h]
    exact ⟨h1, h1⟩
  · intro s b h
    unfold ApiNyTimes.get_data_result responseJson at h
    cases hq : parseTop resp.body with
    | none =>
      rw [hq] at h
      injection h with h2
      exact PyError.noConfusion h2
    | some j2 =>
      rw [hq] at h
      exact Except.noConfusion h

/-- Witness for the amended C1, at a mocked 502 response with a JSON body. -/
theorem c1_amended_witness :
    ApiNyTimes.get_data_result resp502 = .ok j502 ∧
    ExtractApiNewsWire.get_data_result resp502 = .ok j502 ∧
    ApiNyTimes.fetch_and_save stFix resp502 ("out.json")
      = .ok (stFix.PATH_STORAGE ++ "out.json", Json.dumpString j502) :=
  (c1_amended resp502 stFix ("out.json") j502).1 rfl

/-- C2: the code evaluated at the failing input.  `MostPopular.get_content`
composes `endpoint + "/{period}.json"` from the raw `endpoint` argument
(documented as one of `emailed`/`shared`/`viewed`), yielding
`"emailed/7.json"` instead of the documented
`<base>/svc/mostpopular/v2/emailed/7.json`; the dedicated getters
`get_emailed`/`get_shared`/`get_viewed` do compose the claimed URL. -/
theorem c2_get_content_url_eval :
    MostPopular.get_content_url ("emailed") 7 = "emailed/7.json" ∧
    MostPopular.get_content_url ("emailed") 7
      ≠ "https://api.nytimes.com/svc/mostpopular/v2/emailed/7.json" ∧
    MostPopular.get_emailed_url MostPopular.initState 7
      = "https://api.nytimes.com/svc/mostpopular/v2/emailed/7.json" ∧
    MostPopular.get_shared_url MostPopular.initState 1
      = "https://api.nytimes.com/svc/mostpopular/v2/shared/1.json" ∧
    MostPopular.get_viewed_url MostPopular.initState 30
      = "https://api.nytimes.com/svc/mostpopular/v2/viewed/30.json" :=
  ⟨rfl, by decide, rfl, rfl, rfl⟩

/-- C3: every fetch method of `extract.py` passes a single positional
argument to `ApiNyTimes._get_data`, whose `payload` parameter is required,
so each call raises `TypeError` with no HTTP request issued (the request
component is `none`); consequently `TimesWire.__init__`, which runs
`get_section_list`, always fails with that `TypeError`. -/
theorem c3_missing_payload_typeerror :
    (∀ (st : MostPopularState) (endpoint : String) (period : Int),
      MostPopular.get_content_call st endpoint period = (none, .error .typeError)) ∧
    (∀ (st : MostPopularState) (period : Int),
      MostPopular.get_emailed_call st period = (none, .error .typeError)) ∧
    (∀ (st : MostPopularState) (period : Int),
      MostPopular.get_shared_call st period = (none, .error .typeError)) ∧
    (∀ (st : MostPopularState) (period : Int),
      MostPopular.get_viewed_call st period = (none, .error .typeError)) ∧
    (∀ (endpoints : List (String × String)) (src sec : String),
      TimesWire.get_content_call endpoints src sec = (none, .error .typeError)) ∧
    (∀ endpoints : List (String × String),
      TimesWire.get_section_list_call endpoints = (none, .error .typeError)) ∧
    (∀ env : Env, TimesWire.init env = (none, .error .typeError)) :=
  ⟨fun _ _ _ => rfl, fun _ _ => rfl, fun _ _ => rfl, fun _ _ => rfl,
   fun _ _ _ => rfl, fun _ => rfl, fun _ => rfl⟩

/-- C4: for every valid source and every section string, the content URL of
`TimesWire.get_content` is `<BASE_WIRE>/<source>/<section>.json`, and
`ExtractApiNewsWire.get_data` with `endpoint` absent composes the same
content path (and, under the default base URL, the same full URL). -/
theorem c4_content_url (src sec : String)
    (_hsrc : src ∈ (["all", "nyt", "inyt"] : List String)) :
    TimesWire.get_content_url TimesWire.endpointsDict src sec
      = "https://api.nytimes.com/svc/news/v3/content/" ++ src ++ "/" ++ sec ++ ".json" ∧
    ExtractApiNewsWire.get_data_url_path none (some src) (some sec)
      = "/svc/news/v3/content/" ++ src ++ "/" ++ sec ++ ".json" ∧
    (∀ (key : String) (rp : Option String),
      (ExtractApiNewsWire.get_data_request
          { API_KEY := key, BASE_URL := "https://api.nytimes.com/", repo_path := rp }
          none (some src) (some sec)).url
        = "https://api.nytimes.com/svc/news/v3/content/" ++ src ++ "/" ++ sec ++ ".json") :=
  ⟨rfl, rfl, fun _ _ => rfl⟩

/-- Witness for C4 at source `nyt`, section `arts`. -/
theorem c4_content_url_witness :
    TimesWire.get_content_url TimesWire.endpointsDict ("nyt") ("arts")
      = "https://api.nytimes.com/svc/news/v3/content/nyt/arts.json" ∧
    ExtractApiNewsWire.get_data_url_path none (some ("nyt")) (some ("arts"))
      = "/svc/news/v3/content/nyt/arts.json" := by
  obtain ⟨h1, h2, _⟩ := c4_content_url ("nyt") ("arts") (by decide)
  exact ⟨h1, h2⟩

/-- C5, counterexample: `MostPopular.save_content` computes
`most_popular_emailed_7d_10_12.json` (underscore separators, no
`yy_MM_dd-HH_mm_ss` timestamp), which cannot be written as the spec's
policy `<prefix>-<timestamp>-<params>.json` for any prefix, timestamp and
parameter list — the policy always contains a `-`, this filename never
does. -/
theorem c5_counterexample :
    MostPopular.save_content_filename ("emailed") 7 10 12
      = "most_popular_emailed_7d_10_12.json" ∧
    ¬ ∃ (pre ts : String) (params : List String),
        MostPopular.save_content_filename ("emailed") 7 10 12
          = specFilenamePolicy pre ts params := by
  refine ⟨rfl, ?_⟩
  rintro ⟨pre, ts, params, h⟩
  have hd : '-' ∈ ("-" : String).data := by decide
  have hm : '-' ∈ (specFilenamePolicy pre ts params).data := by
    unfold specFilenamePolicy
    rw [str_data_append, str_data_append, str_data_append, str_data_append]
    simp only [List.mem_append]
    tauto
  rw [← h] at hm
  have hno : ¬ ('-' ∈ (MostPopular.save_content_filename ("emailed") 7 10 12).data) := by
    decide
  exact hno hm

/-- C5, amended: `ExtractApiNewsWire.save_data` filenames are
`newswire-<ts>` followed by one `-<value>` segment per supplied truthy
parameter in call order — the separator before each parameter is `-`, not
`_` — ending in `.json`, with falsy parameters (None or the empty string)
skipped rather than rendered as empty segments.  `MostPopular.save_content`
filenames are `most_popular_<endpoint>_<period>d_<month>_<day>.json`: they
end in `.json` and embed the two parameters, but do not follow the
`<prefix>-<timestamp>-` policy at all. -/
theorem c5_amended :
    (∀ ts : String, ExtractApiNewsWire.save_data_filename ts none none none
        = "newswire-" ++ ts ++ ".json") ∧
    (∀ ts e s c : String, e ≠ "" → s ≠ "" → c ≠ "" →
      ExtractApiNewsWire.save_data_filename ts (some e) (some s) (some c)
        = "newswire-" ++ ts ++ "-" ++ e ++ "-" ++ s ++ "-" ++ c ++ ".json") ∧
    (∀ ts s : String, s ≠ "" →
      ExtractApiNewsWire.save_data_filename ts (some ("")) (some s) none
        = "newswire-" ++ ts ++ "-" ++ s ++ ".json") ∧
    (∀ (ts : String) (e s c : Option String),
      ∃ p : List Char, (ExtractApiNewsWire.save_data_filename ts e s c).data
        = p ++ ('.' :: 'j' :: 's' :: 'o' :: 'n' :: [])) ∧
    (∀ (endpoint : String) (period : Int) (month day : Nat),
      ∃ p : List Char,
        (MostPopular.save_content_filename endpoint period month day).data
          = p ++ ('.' :: 'j' :: 's' :: 'o' :: 'n' :: [])) := by
  refine ⟨?_, ?_, ?_, ?_, ?_⟩
  · intro ts
    apply String.ext
    simp [ExtractApiNewsWire.save_data_filename, truthyStr, str_data_append]
  · intro ts e s c he hs hc
    have he' : (e == "") = false := beq_eq_false_iff_ne.mpr he
    have hs' : (s == "") = false := beq_eq_false_iff_ne.mpr hs
    have hc' : (c == "") = false := beq_eq_false_iff_ne.mpr hc
    apply String.ext
    simp [ExtractApiNewsWire.save_data_filename, truthyStr, pyStr, he', hs', hc',
      str_data_append, List.append_assoc]
  · intro ts s hs
    have hs' : (s == "") = false := beq_eq_false_iff_ne.mpr hs
    apply String.ext
    simp [ExtractApiNewsWire.save_data_filename, truthyStr, pyStr, hs',
      str_data_append, List.append_assoc]
  · intro ts e s c
    exact ⟨("newswire-" ++ ts
      ++ (if truthyStr e then "-" ++ pyStr e else "")
      ++ (if truthyStr s then "-" ++ pyStr s else "")
      ++ (if truthyStr c then "-" ++ pyStr c else "")).data, rfl⟩
  · intro endpoint period month day
    exact ⟨("most_popular_" ++ endpoint ++ "_" ++ String.mk (intToChars period) ++ "d_"
      ++ String.mk (natToChars month) ++ "_" ++ String.mk (natToChars day)).data, rfl⟩

/-- Witness for the amended C5: all parameters supplied, and an
empty-string endpoint skipped without leaving an empty segment. -/
theorem c5_amended_witness :
    ExtractApiNewsWire.save_data_filename ("ts0") (some ("content")) (some ("all"))
        (some ("arts"))
      = "newswire-ts0-content-all-arts.json" ∧
    ExtractApiNewsWire.save_data_filename ("ts0") (some ("")) (some ("nyt")) none
      = "newswire-ts0-nyt.json" := by
  constructor
  · exact c5_amended.2.1 ("ts0") ("content") ("all") ("arts")
      (by decide) (by decide) (by decide)
  · exact c5_amended.2.2.1 ("ts0") ("nyt") (by decide)

/-- C6, counterexample: with an empty environment (`NY_API_KEY` absent),
constructing `MostPopular` succeeds — its `__init__` does not call
`ApiNyTimes.__init__` and reads no environment variable — so "constructing
any client fails with KeyError" is false on the code. -/
theorem c6_counterexample :
    MostPopular.init [] = .ok MostPopular.initState ∧
    (MostPopular.init []).isOk = true ∧
    List.lookup ("NY_API_KEY") ([] : Env) = none :=
  ⟨rfl, rfl, rfl⟩

/-- C6, amended: when `NY_API_KEY` is absent, constructing `ApiNyTimes` or
`ExtractApiNewsWire` fails immediately with `KeyError("NY_API_KEY")` before
any network call; but `MostPopular` and `TimesWire` skip
`ApiNyTimes.__init__`: `MostPopular()` succeeds without the variable, and
`TimesWire()` fails with `TypeError` (from its `_get_data` call) for every
environment, not with a configuration error. -/
theorem c6_amended (env : Env) (ps uri rp : Option String)
    (h : List.lookup ("NY_API_KEY") env = none) :
    ApiNyTimes.init env ps uri = .error (.keyError ("NY_API_KEY")) ∧
    ExtractApiNewsWire.init env rp = .error (.keyError ("NY_API_KEY")) ∧
    (MostPopular.init env).isOk = true ∧
    TimesWire.init env = (none, .error .typeError) := by
  have h1 : osEnviron env ("NY_API_KEY") = .error (.keyError ("NY_API_KEY")) := by
    unfold osEnviron
    rw [h]
  refine ⟨?_, ?_, rfl, rfl⟩
  · unfold ApiNyTimes.init
    rw [h1]
  · unfold ExtractApiNewsWire.init
    rw [h1]

/-- Witness for the amended C6 at the empty environment. -/
theorem c6_amended_witness :
    ApiNyTimes.init [] none none = .error (.keyError ("NY_API_KEY")) ∧
    ExtractApiNewsWire.init [] none = .error (.keyError ("NY_API_KEY")) ∧
    (MostPopular.init []).isOk = true ∧
    TimesWire.init [] = (none, .error .typeError) :=
  c6_amended [] none none none rfl

/-- C7, counterexample: the GET issued by `ExtractApiNewsWire.get_data`
passes no `timeout` argument to `requests.get`, so its request has no
connect/read bound — the claim that every fetch GET carries a fixed,
bounded timeout is false on the code. -/
theorem c7_counterexample :
    (ExtractApiNewsWire.get_data_request stFixN none (some ("all"))
        (some ("all"))).timeout = none ∧
    ((ExtractApiNewsWire.get_data_request stFixN none (some ("all"))
        (some ("all"))).timeout).isSome = false :=
  ⟨rfl, rfl⟩

/-- C7, amended: `ApiNyTimes._get_data` issues its GET with the fixed
timeout pair `(10, 30)`; `ExtractApiNewsWire.get_data` issues its GET with
no timeout at all. -/
theorem c7_amended :
    (∀ (st : ApiNyTimesState) (url : String)
        (payload : Option (List (String × String))),
      (ApiNyTimes.get_data_request st url payload).timeout = some (10, 30)) ∧
    (∀ (st : ExtractApiNewsWireState) (e s c : Option String),
      (ExtractApiNewsWire.get_data_request st e s c).timeout = none) :=
  ⟨fun _ _ _ => rfl, fun _ _ _ _ => rfl⟩

/-- C8: whatever the save step of either class writes is the `json.dump`
serialization of exactly the fetched payload, and that serialization is
JSON-equivalent to the response body it was parsed from: parsing the
written file yields the same value again (the round-trip loses and
modifies nothing). -/
theorem c8_roundtrip (resp : HttpResponse) (j : Json) (stA : ApiNyTimesState)
    (stN : ExtractApiNewsWireState) (fn ts : String) (ep src sec : Option String)
    (h : ApiNyTimes.get_data_result resp = .ok j) :
    (ApiNyTimes.save_data_file stA fn j).2 = Json.dumpString j ∧
    (ExtractApiNewsWire.save_data_file stN ts ep src sec j).2 = Json.dumpString j ∧
    parseTop (Json.dumpString j) = some j ∧
    jsonEquiv (Json.dumpString j) resp.body := by
  have hp : parseTop resp.body = some j := by
    unfold ApiNyTimes.get_data_result responseJson at h
    cases hq : parseTop resp.body with
    | none =>
      rw [hq] at h
      exact Except.noConfusion h
    | some j2 =>
      rw [hq] at h
      injection h with h2
      rw [h2]
  refine ⟨rfl, rfl, parseTop_dump j, ?_⟩
  unfold jsonEquiv
  rw [parseTop_dump j, hp]

/-- Witness for C8 at the spec's mocked body. -/
theorem c8_roundtrip_witness :
    (ApiNyTimes.save_data_file stFix ("ok.json") jOK).2 = Json.dumpString jOK ∧
    (ExtractApiNewsWire.save_data_file stFixN ("ts0") none (some ("all"))
        (some ("all")) jOK).2 = Json.dumpString jOK ∧
    parseTop (Json.dumpString jOK) = some jOK ∧
    jsonEquiv (Json.dumpString jOK) respOK.body :=
  c8_roundtrip respOK jOK stFix stFixN ("ok.json") ("ts0") none (some ("all"))
    (some ("all")) rfl

/-- C9: every request built by `ApiNyTimes._get_data` (for any payload that
does not itself rebind `api-key`) and every request built by
`ExtractApiNewsWire.get_data` carries the client's API key as the
`api-key` query parameter. -/
theorem c9_api_key_param (stA : ApiNyTimesState) (url : String)
    (payload : Option (List (String × String)))
    (stN : ExtractApiNewsWireState) (e s c : Option String)
    (h : ∀ kv ∈ payload.getD [], kv.1 ≠ "api-key") :
    dictGet (ApiNyTimes.get_data_request stA url payload).params ("api-key")
      = some stA.API_KEY ∧
    dictGet (ExtractApiNewsWire.get_data_request stN e s c).params ("api-key")
      = some stN.API_KEY := by
  constructor
  · have h0 : dictGet (("api-key", stA.API_KEY) :: payload.getD []) ("api-key")
        = List.foldl (fun acc kv => if kv.1 = "api-key" then some kv.2 else acc)
            (some stA.API_KEY) (payload.getD []) := rfl
    show dictGet (("api-key", stA.API_KEY) :: payload.getD []) ("api-key")
        = some stA.API_KEY
    rw [h0]
    exact foldl_params_skip (payload.getD []) ("api-key") h (some stA.API_KEY)
  · rfl

/-- Witness for C9 with no payload. -/
theorem c9_api_key_param_witness :
    dictGet (ApiNyTimes.get_data_request stFix
        ("https://api.nytimes.com/svc/news/v3/content/all/all.json") none).params
        ("api-key") = some ("testkey") ∧
    dictGet (ExtractApiNewsWire.get_data_request stFixN none (some ("all"))
        (some ("all"))).params ("api-key") = some ("testkey") :=
  c9_api_key_param stFix ("https://api.nytimes.com/svc/news/v3/content/all/all.json")
    none stFixN none (some ("all")) (some ("all"))
    (fun kv hkv => by simp at hkv)

/-- C10: in `ExtractApiNewsWire.get_data` any truthy `endpoint` string —
including `"content"` — selects the section-list path, with `source` and
`section` ignored; the content path is composed only when `endpoint` is
`None` or the empty string. -/
theorem c10_endpoint_truthiness :
    (∀ (e : String) (src sec : Option String), e ≠ "" →
      ExtractApiNewsWire.get_data_url_path (some e) src sec
        = "/svc/news/v3/content/section-list.json") ∧
    (∀ src sec : Option String,
      ExtractApiNewsWire.get_data_url_path none src sec
        = "/svc/news/v3/content/" ++ pyStr src ++ "/" ++ pyStr sec ++ ".json") ∧
    (∀ src sec : Option String,
      ExtractApiNewsWire.get_data_url_path (some ("")) src sec
        = "/svc/news/v3/content/" ++ pyStr src ++ "/" ++ pyStr sec ++ ".json") ∧
    (∀ (e : String) (src sec : Option String) (key : String) (rp : Option String),
      e ≠ "" →
      (ExtractApiNewsWire.get_data_request
          { API_KEY := key, BASE_URL := "https://api.nytimes.com/", repo_path := rp }
          (some e) src sec).url
        = "https://api.nytimes.com/svc/news/v3/content/section-list.json") := by
  have hpath : ∀ (e : String) (src sec : Option String), e ≠ "" →
      ExtractApiNewsWire.get_data_url_path (some e) src sec
        = "/svc/news/v3/content/section-list.json" := by
    intro e src sec he
    simp [ExtractApiNewsWire.get_data_url_path, truthyStr, he]
  refine ⟨hpath, fun _ _ => rfl, fun _ _ => rfl, ?_⟩
  intro e src sec key rp he
  show urljoinAbs ("https://api.nytimes.com/")
      (ExtractApiNewsWire.get_data_url_path (some e) src sec) = _
  rw [hpath e src sec he]
  rfl

/-- Witness for C10 at `endpoint="content"`: the section-list path is
requested even though the caller asked for content. -/
theorem c10_endpoint_truthiness_witness :
    ExtractApiNewsWire.get_data_url_path (some ("content")) (some ("all"))
        (some ("arts"))
      = "/svc/news/v3/content/section-list.json" :=
  c10_endpoint_truthiness.1 ("content") (some ("all")) (some ("arts")) (by decide)

end Newsfeed
